import Mathlib

set_option maxRecDepth 100000

/-!
Verification development for the chess-editor board model
(`src/chess_editor/board.py`).

The Python module defines two enumerations (`PieceColor`, `PieceType`),
an immutable `Piece` value with a symbol table, and a `ChessBoard` whose
state is a dictionary mapping `(row, col)` integer coordinates to an
optional `Piece` (key absent = hole; key present with `None` = empty
cell; key present with a piece = occupied cell).

We embed the dictionary as an association list with Python-dict update
semantics: assignment to an existing key replaces its value in place,
assignment to a fresh key appends, and deletion drops the key.  Every
board operation that mutates in Python is modelled as a function
returning the result together with the new board.
-/

/-- `PieceColor` enumeration from `board.py`. -/
inductive PieceColor where
  | WHITE
  | BLACK
deriving DecidableEq, Repr, Fintype

/-- `PieceType` enumeration from `board.py`. -/
inductive PieceType where
  | KING
  | QUEEN
  | ROOK
  | BISHOP
  | KNIGHT
  | PAWN
deriving DecidableEq, Repr, Fintype

/-- `Piece`: an immutable pair of a piece type and a color
(`Piece.__init__`). -/
structure Piece where
  piece_type : PieceType
  color : PieceColor
deriving DecidableEq, Repr

/-- `Piece.SYMBOLS`: the class-level dictionary mapping each
`(color, piece_type)` pair to its Unicode glyph. -/
def SYMBOLS : List ((PieceColor × PieceType) × String) :=
  [ ((PieceColor.WHITE, PieceType.KING), "♔"),
    ((PieceColor.WHITE, PieceType.QUEEN), "♕"),
    ((PieceColor.WHITE, PieceType.ROOK), "♖"),
    ((PieceColor.WHITE, PieceType.BISHOP), "♗"),
    ((PieceColor.WHITE, PieceType.KNIGHT), "♘"),
    ((PieceColor.WHITE, PieceType.PAWN), "♙"),
    ((PieceColor.BLACK, PieceType.KING), "♚"),
    ((PieceColor.BLACK, PieceType.QUEEN), "♛"),
    ((PieceColor.BLACK, PieceType.ROOK), "♜"),
    ((PieceColor.BLACK, PieceType.BISHOP), "♝"),
    ((PieceColor.BLACK, PieceType.KNIGHT), "♞"),
    ((PieceColor.BLACK, PieceType.PAWN), "♟") ]

/-- `Piece.__str__`: looks up `SYMBOLS[(self.color, self.piece_type)]`.
A Python dict lookup raises `KeyError` when the key is absent, so the
embedding returns an `Option`: `none` models the error branch. -/
def Piece.str (p : Piece) : Option String :=
  (SYMBOLS.find? (fun kv => decide (kv.1 = (p.color, p.piece_type)))).map Prod.snd

/-- The board dictionary: `{(row, col): Optional[Piece]}` as an
association list in insertion order. -/
abbrev Dict : Type := List ((Int × Int) × Option Piece)

/-- Key lookup on the dictionary: `some v` when the key is present with
stored value `v`, `none` when the key is absent. -/
def Dict.lookupKey (d : Dict) (k : Int × Int) : Option (Option Piece) :=
  (List.find? (fun kv => decide (kv.1 = k)) d).map Prod.snd

/-- Python dict assignment `d[k] = v`: replace in place when `k` is
present, append when fresh. -/
def Dict.set (d : Dict) (k : Int × Int) (v : Option Piece) : Dict :=
  if (Dict.lookupKey d k).isSome then
    List.map (fun kv => if kv.1 = k then (k, v) else kv) d
  else
    d ++ [(k, v)]

/-- Python dict deletion `del d[k]`: drop the key. -/
def Dict.erase (d : Dict) (k : Int × Int) : Dict :=
  List.filter (fun kv => decide (¬ kv.1 = k)) d

/-- `ChessBoard`: the board state is just the coordinate dictionary. -/
structure ChessBoard where
  board : Dict
deriving DecidableEq

/-- `ChessBoard.cell_exists`: `(row, col) in self.board`. -/
def ChessBoard.cell_exists (b : ChessBoard) (row col : Int) : Bool :=
  (Dict.lookupKey b.board (row, col)).isSome

/-- `ChessBoard.add_cell`: create an empty cell unless it already
exists; returns the success flag and the new board. -/
def ChessBoard.add_cell (b : ChessBoard) (row col : Int) : Bool × ChessBoard :=
  if ¬ (b.cell_exists row col) then
    (true, ⟨Dict.set b.board (row, col) none⟩)
  else
    (false, b)

/-- `ChessBoard.remove_cell`: delete the cell (making a hole) when it
exists; returns the success flag and the new board. -/
def ChessBoard.remove_cell (b : ChessBoard) (row col : Int) : Bool × ChessBoard :=
  if b.cell_exists row col then
    (true, ⟨Dict.erase b.board (row, col)⟩)
  else
    (false, b)

/-- `ChessBoard.get_piece`: `self.board.get((row, col))` — returns the
stored piece, conflating "empty cell" and "hole" into `none`. -/
def ChessBoard.get_piece (b : ChessBoard) (row col : Int) : Option Piece :=
  (Dict.lookupKey b.board (row, col)).getD none

/-- `ChessBoard.set_piece`: overwrite the cell content when the cell
exists; returns the success flag and the new board. -/
def ChessBoard.set_piece (b : ChessBoard) (row col : Int) (piece : Option Piece) :
    Bool × ChessBoard :=
  if b.cell_exists row col then
    (true, ⟨Dict.set b.board (row, col) piece⟩)
  else
    (false, b)

/-- `ChessBoard.get_bounds`: `(0,0,0,0)` for an empty dictionary,
otherwise `(min rows, max rows, min cols, max cols)` over the keys.
Python's `min`/`max` over a nonempty list is folded from the head. -/
def ChessBoard.get_bounds (b : ChessBoard) : Int × Int × Int × Int :=
  match b.board with
  | [] => (0, 0, 0, 0)
  | kv :: rest =>
      let keys := (kv :: rest).map Prod.fst
      let rows := keys.map Prod.fst
      let cols := keys.map Prod.snd
      (rows.tail.foldl min (rows.headI), rows.tail.foldl max (rows.headI),
       cols.tail.foldl min (cols.headI), cols.tail.foldl max (cols.headI))

/-- `ChessBoard.get_all_cells`: `list(self.board.keys())`. -/
def ChessBoard.get_all_cells (b : ChessBoard) : List (Int × Int) :=
  b.board.map Prod.fst

/-- `ChessBoard.clear`: reset the dictionary to empty. -/
def ChessBoard.clear (_b : ChessBoard) : ChessBoard :=
  ⟨[]⟩

/-- The `back_row` list from `setup_standard_position`. -/
def back_row : List PieceType :=
  [PieceType.ROOK, PieceType.KNIGHT, PieceType.BISHOP, PieceType.QUEEN,
   PieceType.KING, PieceType.BISHOP, PieceType.KNIGHT, PieceType.ROOK]

/-- `ChessBoard.setup_standard_position`: clear, create the 8×8 grid of
empty cells row-major, then place black back rank and pawns on rows 0–1
and white back rank and pawns on rows 7 and 6, column by column in the
source's assignment order. -/
def ChessBoard.setup_standard_position (_b : ChessBoard) : ChessBoard :=
  let d0 : Dict := []
  let d1 := (List.range 8).foldl (fun d row =>
    (List.range 8).foldl (fun d col =>
      Dict.set d ((row : Int), (col : Int)) none) d) d0
  let d2 := back_row.enum.foldl (fun d x =>
    Dict.set (Dict.set d (0, (x.1 : Int)) (some ⟨x.2, PieceColor.BLACK⟩))
      (1, (x.1 : Int)) (some ⟨PieceType.PAWN, PieceColor.BLACK⟩)) d1
  let d3 := back_row.enum.foldl (fun d x =>
    Dict.set (Dict.set d (7, (x.1 : Int)) (some ⟨x.2, PieceColor.WHITE⟩))
      (6, (x.1 : Int)) (some ⟨PieceType.PAWN, PieceColor.WHITE⟩)) d2
  ⟨d3⟩

/-- `ChessBoard.setup_irregular_example`: clear, create the 9×9 grid
skipping the four 3×3 corner blocks (the `continue` branch), then
place the five pieces. -/
def ChessBoard.setup_irregular_example (_b : ChessBoard) : ChessBoard :=
  let d0 : Dict := []
  let d1 := (List.range 9).foldl (fun d row =>
    (List.range 9).foldl (fun d col =>
      if (row < 3 ∧ col < 3) ∨ (row < 3 ∧ col > 5) ∨
         (row > 5 ∧ col < 3) ∨ (row > 5 ∧ col > 5) then d
      else Dict.set d ((row : Int), (col : Int)) none) d) d0
  let d2 := Dict.set d1 (4, 4) (some ⟨PieceType.KING, PieceColor.WHITE⟩)
  let d3 := Dict.set d2 (0, 4) (some ⟨PieceType.QUEEN, PieceColor.BLACK⟩)
  let d4 := Dict.set d3 (8, 4) (some ⟨PieceType.QUEEN, PieceColor.WHITE⟩)
  let d5 := Dict.set d4 (4, 0) (some ⟨PieceType.ROOK, PieceColor.BLACK⟩)
  let d6 := Dict.set d5 (4, 8) (some ⟨PieceType.ROOK, PieceColor.WHITE⟩)
  ⟨d6⟩

theorem Dict.lookupKey_cons (kv : (Int × Int) × Option Piece) (d : Dict) (k : Int × Int) :
    Dict.lookupKey (kv :: d) k = if kv.1 = k then some kv.2 else Dict.lookupKey d k := by
  unfold Dict.lookupKey
  by_cases h : kv.1 = k
  · rw [List.find?_cons_of_pos _ (by simpa using h), if_pos h]
    rfl
  · rw [List.find?_cons_of_neg _ (by simpa using h), if_neg h]

theorem Dict.lookupKey_map_set_self (d : Dict) (k : Int × Int) (v : Option Piece)
    (h : (Dict.lookupKey d k).isSome = true) :
    Dict.lookupKey (List.map (fun kv => if kv.1 = k then (k, v) else kv) d) k = some v := by
  induction d with
  | nil => simp [Dict.lookupKey] at h
  | cons kv d ih =>
      by_cases hk : kv.1 = k
      · simp only [List.map_cons, if_pos hk, Dict.lookupKey_cons]
        simp
      · simp only [List.map_cons, if_neg hk, Dict.lookupKey_cons, if_neg hk]
        apply ih
        rw [Dict.lookupKey_cons, if_neg hk] at h
        exact h

theorem Dict.lookupKey_map_set_other (d : Dict) (k k' : Int × Int) (v : Option Piece)
    (h : k' ≠ k) :
    Dict.lookupKey (List.map (fun kv => if kv.1 = k then (k, v) else kv) d) k'
      = Dict.lookupKey d k' := by
  induction d with
  | nil => rfl
  | cons kv d ih =>
      by_cases hk : kv.1 = k
      · simp only [List.map_cons, if_pos hk, Dict.lookupKey_cons]
        rw [if_neg (fun hh => h hh.symm), if_neg (fun hh => h (hk ▸ hh).symm), ih]
      · simp only [List.map_cons, if_neg hk, Dict.lookupKey_cons, ih]

theorem Dict.lookupKey_append (d1 d2 : Dict) (k : Int × Int) :
    Dict.lookupKey (d1 ++ d2) k
      = match Dict.lookupKey d1 k with
        | some v => some v
        | none => Dict.lookupKey d2 k := by
  induction d1 with
  | nil => rfl
  | cons kv d ih =>
      by_cases hk : kv.1 = k
      · simp [Dict.lookupKey_cons, hk, ih]
      · simp [Dict.lookupKey_cons, hk, ih]

theorem Dict.lookupKey_set_self (d : Dict) (k : Int × Int) (v : Option Piece) :
    Dict.lookupKey (Dict.set d k v) k = some v := by
  unfold Dict.set
  by_cases h : (Dict.lookupKey d k).isSome = true
  · rw [if_pos h]
    exact Dict.lookupKey_map_set_self d k v h
  · rw [if_neg h, Dict.lookupKey_append]
    rw [Option.not_isSome_iff_eq_none] at h
    rw [h]
    simp [Dict.lookupKey_cons]

theorem Dict.lookupKey_set_other (d : Dict) (k k' : Int × Int) (v : Option Piece)
    (h : k' ≠ k) :
    Dict.lookupKey (Dict.set d k v) k' = Dict.lookupKey d k' := by
  unfold Dict.set
  by_cases hs : (Dict.lookupKey d k).isSome = true
  · rw [if_pos hs]
    exact Dict.lookupKey_map_set_other d k k' v h
  · rw [if_neg hs, Dict.lookupKey_append]
    cases hd : Dict.lookupKey d k' with
    | some v' => rfl
    | none =>
        show Dict.lookupKey [(k, v)] k' = none
        rw [Dict.lookupKey_cons, if_neg (fun hh : k = k' => h hh.symm)]
        rfl

theorem Dict.erase_cons (kv : (Int × Int) × Option Piece) (d : Dict) (k : Int × Int) :
    Dict.erase (kv :: d) k
      = if kv.1 = k then Dict.erase d k else kv :: Dict.erase d k := by
  unfold Dict.erase
  by_cases hk : kv.1 = k
  · rw [List.filter_cons_of_neg (by simpa using hk), if_pos hk]
  · rw [List.filter_cons_of_pos (by simpa using hk), if_neg hk]

theorem Dict.lookupKey_erase_self (d : Dict) (k : Int × Int) :
    Dict.lookupKey (Dict.erase d k) k = none := by
  induction d with
  | nil => rfl
  | cons kv d ih =>
      rw [Dict.erase_cons]
      by_cases hk : kv.1 = k
      · rw [if_pos hk]
        exact ih
      · rw [if_neg hk, Dict.lookupKey_cons, if_neg hk]
        exact ih

theorem Dict.lookupKey_erase_other (d : Dict) (k k' : Int × Int) (h : k' ≠ k) :
    Dict.lookupKey (Dict.erase d k) k' = Dict.lookupKey d k' := by
  induction d with
  | nil => rfl
  | cons kv d ih =>
      rw [Dict.erase_cons]
      by_cases hk : kv.1 = k
      · rw [if_pos hk, Dict.lookupKey_cons, if_neg (fun hh => h (hk ▸ hh).symm)]
        exact ih
      · rw [if_neg hk, Dict.lookupKey_cons, Dict.lookupKey_cons]
        by_cases hk' : kv.1 = k'
        · simp only [if_pos hk']
        · simp only [if_neg hk']
          exact ih

theorem Dict.lookupKey_isSome_iff_mem (d : Dict) (k : Int × Int) :
    (Dict.lookupKey d k).isSome = true ↔ k ∈ d.map Prod.fst := by
  induction d with
  | nil => simp [Dict.lookupKey]
  | cons kv d ih =>
      rw [Dict.lookupKey_cons]
      by_cases hk : kv.1 = k
      · simp [hk]
      · simp only [if_neg hk, List.map_cons, List.mem_cons, ih]
        constructor
        · exact Or.inr
        · rintro (h | h)
          · exact absurd h.symm hk
          · exact h

theorem Dict.lookupKey_eq_some_mem (d : Dict) (k : Int × Int) (v : Option Piece)
    (h : Dict.lookupKey d k = some v) : (k, v) ∈ d := by
  induction d with
  | nil => simp [Dict.lookupKey] at h
  | cons kv d ih =>
      rw [Dict.lookupKey_cons] at h
      by_cases hk : kv.1 = k
      · rw [if_pos hk] at h
        have hv : kv.2 = v := Option.some.inj h
        exact List.mem_cons.mpr (Or.inl (by rw [← hk, ← hv]))
      · rw [if_neg hk] at h
        exact List.mem_cons_of_mem _ (ih h)

theorem foldl_min_le_init (xs : List Int) (x : Int) : xs.foldl min x ≤ x := by
  induction xs generalizing x with
  | nil => exact le_refl x
  | cons a xs ih => exact le_trans (ih (min x a)) (min_le_left x a)

theorem foldl_min_le_mem (xs : List Int) (x y : Int) (h : y ∈ xs) :
    xs.foldl min x ≤ y := by
  induction xs generalizing x with
  | nil => simp at h
  | cons a xs ih =>
      rcases List.mem_cons.mp h with h | h
      · subst h
        exact le_trans (foldl_min_le_init xs (min x y)) (min_le_right x y)
      · exact ih (min x a) h

theorem foldl_min_mem (xs : List Int) (x : Int) :
    xs.foldl min x = x ∨ xs.foldl min x ∈ xs := by
  induction xs generalizing x with
  | nil => exact Or.inl rfl
  | cons a xs ih =>
      rcases ih (min x a) with h | h
      · rcases min_choice x a with hm | hm
        · exact Or.inl (by rw [List.foldl_cons, h, hm])
        · refine Or.inr (List.mem_cons.mpr (Or.inl ?_))
          rw [List.foldl_cons, h, hm]
      · exact Or.inr (List.mem_cons.mpr (Or.inr h))

theorem foldl_max_le_init (xs : List Int) (x : Int) : x ≤ xs.foldl max x := by
  induction xs generalizing x with
  | nil => exact le_refl x
  | cons a xs ih => exact le_trans (le_max_left x a) (ih (max x a))

theorem foldl_max_le_mem (xs : List Int) (x y : Int) (h : y ∈ xs) :
    y ≤ xs.foldl max x := by
  induction xs generalizing x with
  | nil => simp at h
  | cons a xs ih =>
      rcases List.mem_cons.mp h with h | h
      · subst h
        exact le_trans (le_max_right x y) (foldl_max_le_init xs (max x y))
      · exact ih (max x a) h

theorem foldl_max_mem (xs : List Int) (x : Int) :
    xs.foldl max x = x ∨ xs.foldl max x ∈ xs := by
  induction xs generalizing x with
  | nil => exact Or.inl rfl
  | cons a xs ih =>
      rcases ih (max x a) with h | h
      · rcases max_choice x a with hm | hm
        · exact Or.inl (by rw [List.foldl_cons, h, hm])
        · refine Or.inr (List.mem_cons.mpr (Or.inl ?_))
          rw [List.foldl_cons, h, hm]
      · exact Or.inr (List.mem_cons.mpr (Or.inr h))

/-- C1: `set_piece` on a coordinate that does not exist as a cell returns
`False` and leaves the board (and hence `get_all_cells`) unchanged; the
cell is never created. -/
theorem C1_set_piece_on_hole (b : ChessBoard) (row col : Int) (p : Option Piece)
    (h : b.cell_exists row col = false) :
    b.set_piece row col p = (false, b) ∧
    (b.set_piece row col p).2.get_all_cells = b.get_all_cells := by
  have hb : b.set_piece row col p = (false, b) := by
    unfold ChessBoard.set_piece
    simp [h]
  exact ⟨hb, by rw [hb]⟩

/-- Witness for C1 at a concrete board with a hole at (0, 0). -/
theorem C1_set_piece_on_hole_witness :
    (ChessBoard.mk [((1, 1), none)]).cell_exists 0 0 = false ∧
    ((ChessBoard.mk [((1, 1), none)]).set_piece 0 0
        (some ⟨PieceType.KING, PieceColor.WHITE⟩)
      = (false, ChessBoard.mk [((1, 1), none)]) ∧
     ((ChessBoard.mk [((1, 1), none)]).set_piece 0 0
        (some ⟨PieceType.KING, PieceColor.WHITE⟩)).2.get_all_cells
      = (ChessBoard.mk [((1, 1), none)]).get_all_cells) :=
  ⟨by decide,
   C1_set_piece_on_hole (ChessBoard.mk [((1, 1), none)]) 0 0
     (some ⟨PieceType.KING, PieceColor.WHITE⟩) (by decide)⟩

/-- C6: `add_cell` succeeds exactly on a previously non-existing
coordinate, after which the cell exists and is empty; on an existing
cell (in particular on any second call) it returns `False` and is a
no-op, preserving the cell's occupancy. -/
theorem C6_add_cell (b : ChessBoard) (row col : Int) :
    ((b.add_cell row col).1 = true ↔ b.cell_exists row col = false) ∧
    (b.cell_exists row col = false →
       ((b.add_cell row col).2.cell_exists row col = true ∧
        (b.add_cell row col).2.get_piece row col = none)) ∧
    (b.cell_exists row col = true → b.add_cell row col = (false, b)) ∧
    ((b.add_cell row col).2.add_cell row col = (false, (b.add_cell row col).2)) := by
  by_cases h : b.cell_exists row col = true
  · have hb : b.add_cell row col = (false, b) := by
      unfold ChessBoard.add_cell
      simp [h]
    rw [hb]
    exact ⟨by simp [h], by simp [h], fun _ => rfl, hb⟩
  · have hf : b.cell_exists row col = false := by simpa using h
    have hb : b.add_cell row col
        = (true, ⟨Dict.set b.board (row, col) none⟩) := by
      unfold ChessBoard.add_cell
      simp [hf]
    have hce : (ChessBoard.mk (Dict.set b.board (row, col) none)).cell_exists row col
        = true := by
      simp [ChessBoard.cell_exists, Dict.lookupKey_set_self]
    rw [hb]
    refine ⟨by simp [hf], fun _ => ⟨hce, ?_⟩, fun hc => absurd hc h, ?_⟩
    · simp [ChessBoard.get_piece, Dict.lookupKey_set_self]
    · unfold ChessBoard.add_cell
      simp [hce]

/-- Witness for C6: adding a fresh cell on the empty board. -/
theorem C6_add_cell_witness :
    (ChessBoard.mk []).cell_exists 0 0 = false ∧
    (((ChessBoard.mk []).add_cell 0 0).2.cell_exists 0 0 = true ∧
     ((ChessBoard.mk []).add_cell 0 0).2.get_piece 0 0 = none) :=
  ⟨by decide, (C6_add_cell (ChessBoard.mk []) 0 0).2.1 (by decide)⟩

/-- C7: after `remove_cell` the coordinate never exists and holds no
piece, and the returned flag is `True` exactly when the cell existed
beforehand. -/
theorem C7_remove_cell (b : ChessBoard) (row col : Int) :
    (b.remove_cell row col).2.cell_exists row col = false ∧
    (b.remove_cell row col).2.get_piece row col = none ∧
    ((b.remove_cell row col).1 = true ↔ b.cell_exists row col = true) := by
  by_cases h : b.cell_exists row col = true
  · have hb : b.remove_cell row col = (true, ⟨Dict.erase b.board (row, col)⟩) := by
      unfold ChessBoard.remove_cell
      simp [h]
    rw [hb]
    refine ⟨?_, ?_, by simp [h]⟩
    · simp [ChessBoard.cell_exists, Dict.lookupKey_erase_self]
    · simp [ChessBoard.get_piece, Dict.lookupKey_erase_self]
  · have hf : b.cell_exists row col = false := by simpa using h
    have hb : b.remove_cell row col = (false, b) := by
      unfold ChessBoard.remove_cell
      simp [hf]
    rw [hb]
    cases hd : Dict.lookupKey b.board (row, col) with
    | none => exact ⟨hf, by simp [ChessBoard.get_piece, hd], by simp [hf]⟩
    | some v =>
        exfalso
        apply h
        unfold ChessBoard.cell_exists
        rw [hd]
        rfl

/-- C8: on an existing empty cell, `set_piece` succeeds and a subsequent
`get_piece` returns a piece equal in (kind, color) to the one placed. -/
theorem C8_round_trip (b : ChessBoard) (row col : Int) (P : Piece)
    (hex : b.cell_exists row col = true) (_hemp : b.get_piece row col = none) :
    (b.set_piece row col (some P)).1 = true ∧
    (b.set_piece row col (some P)).2.get_piece row col = some P := by
  have hb : b.set_piece row col (some P)
      = (true, ⟨Dict.set b.board (row, col) (some P)⟩) := by
    unfold ChessBoard.set_piece
    simp [hex]
  rw [hb]
  exact ⟨rfl, by simp [ChessBoard.get_piece, Dict.lookupKey_set_self]⟩

/-- Witness for C8: placing a white queen on the empty cell (2, 0) of the
standard board. -/
theorem C8_round_trip_witness :
    ((ChessBoard.setup_standard_position (ChessBoard.mk [])).cell_exists 2 0 = true ∧
     (ChessBoard.setup_standard_position (ChessBoard.mk [])).get_piece 2 0 = none) ∧
    (((ChessBoard.setup_standard_position (ChessBoard.mk [])).set_piece 2 0
        (some ⟨PieceType.QUEEN, PieceColor.WHITE⟩)).1 = true ∧
     ((ChessBoard.setup_standard_position (ChessBoard.mk [])).set_piece 2 0
        (some ⟨PieceType.QUEEN, PieceColor.WHITE⟩)).2.get_piece 2 0
       = some ⟨PieceType.QUEEN, PieceColor.WHITE⟩) :=
  ⟨⟨by decide, by decide⟩,
   C8_round_trip (ChessBoard.setup_standard_position (ChessBoard.mk [])) 2 0
     ⟨PieceType.QUEEN, PieceColor.WHITE⟩ (by decide) (by decide)⟩

/-- C9: `get_piece` yields the occupying piece of an occupied cell and
`none` both on an existing empty cell and on a hole; in the embedding it
is a pure function of the state, so it cannot mutate the board. -/
theorem C9_get_piece (b : ChessBoard) (row col : Int) :
    (b.cell_exists row col = false → b.get_piece row col = none) ∧
    (Dict.lookupKey b.board (row, col) = some none → b.get_piece row col = none) ∧
    (∀ p : Piece, Dict.lookupKey b.board (row, col) = some (some p) →
        b.get_piece row col = some p) := by
  refine ⟨fun h => ?_, fun h => by simp [ChessBoard.get_piece, h],
    fun p h => by simp [ChessBoard.get_piece, h]⟩
  cases hd : Dict.lookupKey b.board (row, col) with
  | none => simp [ChessBoard.get_piece, hd]
  | some v =>
      exfalso
      unfold ChessBoard.cell_exists at h
      rw [hd] at h
      simp at h

/-- Witness for C9 on a concrete board with a hole, an empty cell and an
occupied cell. -/
theorem C9_get_piece_witness :
    (ChessBoard.mk [((0, 0), some ⟨PieceType.KING, PieceColor.WHITE⟩),
       ((1, 1), none)]).get_piece 5 5 = none ∧
    (ChessBoard.mk [((0, 0), some ⟨PieceType.KING, PieceColor.WHITE⟩),
       ((1, 1), none)]).get_piece 1 1 = none ∧
    (ChessBoard.mk [((0, 0), some ⟨PieceType.KING, PieceColor.WHITE⟩),
       ((1, 1), none)]).get_piece 0 0 = some ⟨PieceType.KING, PieceColor.WHITE⟩ :=
  ⟨(C9_get_piece (ChessBoard.mk [((0, 0), some ⟨PieceType.KING, PieceColor.WHITE⟩),
       ((1, 1), none)]) 5 5).1 (by decide),
   (C9_get_piece (ChessBoard.mk [((0, 0), some ⟨PieceType.KING, PieceColor.WHITE⟩),
       ((1, 1), none)]) 1 1).2.1 (by decide),
   (C9_get_piece (ChessBoard.mk [((0, 0), some ⟨PieceType.KING, PieceColor.WHITE⟩),
       ((1, 1), none)]) 0 0).2.2 ⟨PieceType.KING, PieceColor.WHITE⟩ (by decide)⟩

/-- C10: each single-cell mutator (`add_cell`, `remove_cell`,
`set_piece`) preserves `cell_exists` and `get_piece` at every other
coordinate. -/
theorem C10_frame (b : ChessBoard) (row col row' col' : Int) (p : Option Piece)
    (h : (row', col') ≠ (row, col)) :
    ((b.add_cell row col).2.cell_exists row' col' = b.cell_exists row' col' ∧
     (b.add_cell row col).2.get_piece row' col' = b.get_piece row' col') ∧
    ((b.remove_cell row col).2.cell_exists row' col' = b.cell_exists row' col' ∧
     (b.remove_cell row col).2.get_piece row' col' = b.get_piece row' col') ∧
    ((b.set_piece row col p).2.cell_exists row' col' = b.cell_exists row' col' ∧
     (b.set_piece row col p).2.get_piece row' col' = b.get_piece row' col') := by
  have hadd : Dict.lookupKey (b.add_cell row col).2.board (row', col')
      = Dict.lookupKey b.board (row', col') := by
    unfold ChessBoard.add_cell
    by_cases hc : b.cell_exists row col = true
    · simp [hc]
    · simp only [hc, not_false_eq_true, if_true, Bool.false_eq_true, if_false]
      exact Dict.lookupKey_set_other b.board (row, col) (row', col') none h
  have hrem : Dict.lookupKey (b.remove_cell row col).2.board (row', col')
      = Dict.lookupKey b.board (row', col') := by
    unfold ChessBoard.remove_cell
    by_cases hc : b.cell_exists row col = true
    · simp only [hc, if_true]
      exact Dict.lookupKey_erase_other b.board (row, col) (row', col') h
    · simp [hc]
  have hset : Dict.lookupKey (b.set_piece row col p).2.board (row', col')
      = Dict.lookupKey b.board (row', col') := by
    unfold ChessBoard.set_piece
    by_cases hc : b.cell_exists row col = true
    · simp only [hc, if_true]
      exact Dict.lookupKey_set_other b.board (row, col) (row', col') p h
    · simp [hc]
  exact ⟨⟨by simp [ChessBoard.cell_exists, hadd], by simp [ChessBoard.get_piece, hadd]⟩,
    ⟨by simp [ChessBoard.cell_exists, hrem], by simp [ChessBoard.get_piece, hrem]⟩,
    ⟨by simp [ChessBoard.cell_exists, hset], by simp [ChessBoard.get_piece, hset]⟩⟩

/-- Witness for C10: mutating (0, 0) leaves the occupied cell (1, 1)
untouched on a concrete board. -/
theorem C10_frame_witness :
    (1, 1) ≠ ((0 : Int), (0 : Int)) ∧
    ((((ChessBoard.mk [((0, 0), none), ((1, 1), some ⟨PieceType.PAWN, PieceColor.BLACK⟩)]).add_cell
          0 0).2.cell_exists 1 1
        = (ChessBoard.mk [((0, 0), none),
            ((1, 1), some ⟨PieceType.PAWN, PieceColor.BLACK⟩)]).cell_exists 1 1 ∧
      (((ChessBoard.mk [((0, 0), none),
            ((1, 1), some ⟨PieceType.PAWN, PieceColor.BLACK⟩)]).add_cell 0 0).2.get_piece 1 1
        = (ChessBoard.mk [((0, 0), none),
            ((1, 1), some ⟨PieceType.PAWN, PieceColor.BLACK⟩)]).get_piece 1 1)) ∧
     ((((ChessBoard.mk [((0, 0), none),
            ((1, 1), some ⟨PieceType.PAWN, PieceColor.BLACK⟩)]).remove_cell 0 0).2.cell_exists 1 1
        = (ChessBoard.mk [((0, 0), none),
            ((1, 1), some ⟨PieceType.PAWN, PieceColor.BLACK⟩)]).cell_exists 1 1 ∧
      (((ChessBoard.mk [((0, 0), none),
            ((1, 1), some ⟨PieceType.PAWN, PieceColor.BLACK⟩)]).remove_cell 0 0).2.get_piece 1 1
        = (ChessBoard.mk [((0, 0), none),
            ((1, 1), some ⟨PieceType.PAWN, PieceColor.BLACK⟩)]).get_piece 1 1)) ∧
     (((ChessBoard.mk [((0, 0), none),
            ((1, 1), some ⟨PieceType.PAWN, PieceColor.BLACK⟩)]).set_piece 0 0
              (some ⟨PieceType.ROOK, PieceColor.WHITE⟩)).2.cell_exists 1 1
        = (ChessBoard.mk [((0, 0), none),
            ((1, 1), some ⟨PieceType.PAWN, PieceColor.BLACK⟩)]).cell_exists 1 1 ∧
      ((ChessBoard.mk [((0, 0), none),
            ((1, 1), some ⟨PieceType.PAWN, PieceColor.BLACK⟩)]).set_piece 0 0
              (some ⟨PieceType.ROOK, PieceColor.WHITE⟩)).2.get_piece 1 1
        = (ChessBoard.mk [((0, 0), none),
            ((1, 1), some ⟨PieceType.PAWN, PieceColor.BLACK⟩)]).get_piece 1 1))) :=
  ⟨by decide,
   C10_frame (ChessBoard.mk [((0, 0), none),
       ((1, 1), some ⟨PieceType.PAWN, PieceColor.BLACK⟩)]) 0 0 1 1
     (some ⟨PieceType.ROOK, PieceColor.WHITE⟩) (by decide)⟩

/-- C5: for every (color, kind) pair from the two closed enumerations the
symbol lookup succeeds (the `KeyError` branch is unreachable), returns a
non-empty glyph, and the 12 glyphs are pairwise distinct. -/
theorem C5_symbols :
    (∀ color : PieceColor, ∀ kind : PieceType,
        (Piece.str ⟨kind, color⟩).isSome = true ∧
        (Piece.str ⟨kind, color⟩).getD "" ≠ "") ∧
    (∀ color : PieceColor, ∀ kind : PieceType, ∀ color' : PieceColor, ∀ kind' : PieceType,
        Piece.str ⟨kind, color⟩ = Piece.str ⟨kind', color'⟩ →
          color = color' ∧ kind = kind') := by
  constructor
  · decide
  · decide

/-- Witness for C5: the white-king lookup succeeds, and glyph equality at
the same pair is discharged by reflexivity. -/
theorem C5_symbols_witness :
    ((Piece.str ⟨PieceType.KING, PieceColor.WHITE⟩).isSome = true ∧
     (Piece.str ⟨PieceType.KING, PieceColor.WHITE⟩).getD "" ≠ "") ∧
    (PieceColor.WHITE = PieceColor.WHITE ∧ PieceType.KING = PieceType.KING) :=
  ⟨C5_symbols.1 PieceColor.WHITE PieceType.KING,
   C5_symbols.2 PieceColor.WHITE PieceType.KING PieceColor.WHITE PieceType.KING rfl⟩

theorem foldl_min_spec (x : Int) (xs : List Int) :
    (∀ y ∈ x :: xs, xs.foldl min x ≤ y) ∧ xs.foldl min x ∈ x :: xs := by
  constructor
  · intro y hy
    rcases List.mem_cons.mp hy with h | h
    · exact h ▸ foldl_min_le_init xs x
    · exact foldl_min_le_mem xs x y h
  · rcases foldl_min_mem xs x with h | h
    · exact List.mem_cons.mpr (Or.inl h)
    · exact List.mem_cons.mpr (Or.inr h)

theorem foldl_max_spec (x : Int) (xs : List Int) :
    (∀ y ∈ x :: xs, y ≤ xs.foldl max x) ∧ xs.foldl max x ∈ x :: xs := by
  constructor
  · intro y hy
    rcases List.mem_cons.mp hy with h | h
    · exact h ▸ foldl_max_le_init xs x
    · exact foldl_max_le_mem xs x y h
  · rcases foldl_max_mem xs x with h | h
    · exact List.mem_cons.mpr (Or.inl h)
    · exact List.mem_cons.mpr (Or.inr h)

theorem proj_mem_cons (x : Int × Int) (xs : List (Int × Int)) (f : Int × Int → Int)
    (k : Int × Int) (h : k ∈ x :: xs) : f k ∈ f x :: xs.map f := by
  rcases List.mem_cons.mp h with h | h
  · exact List.mem_cons.mpr (Or.inl (by rw [h]))
  · exact List.mem_cons.mpr (Or.inr (List.mem_map_of_mem f h))

theorem exists_of_proj_mem (x : Int × Int) (xs : List (Int × Int)) (f : Int × Int → Int)
    (v : Int) (h : v ∈ f x :: xs.map f) : ∃ k ∈ x :: xs, f k = v := by
  rcases List.mem_cons.mp h with h | h
  · exact ⟨x, List.mem_cons.mpr (Or.inl rfl), h.symm⟩
  · obtain ⟨a, ha, hfa⟩ := List.mem_map.mp h
    exact ⟨a, List.mem_cons.mpr (Or.inr ha), hfa⟩

/-- C3: `get_bounds` is `(0,0,0,0)` on a board with zero cells, and
otherwise `(minRow, maxRow, minCol, maxCol)` over the existing
coordinates (each bound holds for every cell and is attained by some
cell); after `setup_standard_position` it is `(0,7,0,7)`. -/
theorem C3_bounds (b : ChessBoard) :
    (b.get_all_cells = [] → b.get_bounds = (0, 0, 0, 0)) ∧
    (b.get_all_cells ≠ [] →
       ((∀ k ∈ b.get_all_cells,
           b.get_bounds.1 ≤ k.1 ∧ k.1 ≤ b.get_bounds.2.1 ∧
           b.get_bounds.2.2.1 ≤ k.2 ∧ k.2 ≤ b.get_bounds.2.2.2) ∧
        (∃ k ∈ b.get_all_cells, k.1 = b.get_bounds.1) ∧
        (∃ k ∈ b.get_all_cells, k.1 = b.get_bounds.2.1) ∧
        (∃ k ∈ b.get_all_cells, k.2 = b.get_bounds.2.2.1) ∧
        (∃ k ∈ b.get_all_cells, k.2 = b.get_bounds.2.2.2))) ∧
    (ChessBoard.setup_standard_position b).get_bounds = (0, 7, 0, 7) := by
  obtain ⟨d⟩ := b
  cases d with
  | nil => exact ⟨fun _ => rfl, fun hne => absurd rfl hne, by rfl⟩
  | cons kv rest =>
      refine ⟨fun hc => ?_, fun _ => ?_, by rfl⟩
      · exact absurd hc (by simp [ChessBoard.get_all_cells])
      · have hcells : (ChessBoard.mk (kv :: rest)).get_all_cells
            = kv.1 :: rest.map Prod.fst := rfl
        have hminr := foldl_min_spec kv.1.1 ((rest.map Prod.fst).map Prod.fst)
        have hmaxr := foldl_max_spec kv.1.1 ((rest.map Prod.fst).map Prod.fst)
        have hminc := foldl_min_spec kv.1.2 ((rest.map Prod.fst).map Prod.snd)
        have hmaxc := foldl_max_spec kv.1.2 ((rest.map Prod.fst).map Prod.snd)
        refine ⟨?_, ?_, ?_, ?_, ?_⟩
        · intro k hk
          rw [hcells] at hk
          exact ⟨hminr.1 k.1 (proj_mem_cons kv.1 (rest.map Prod.fst) Prod.fst k hk),
                 hmaxr.1 k.1 (proj_mem_cons kv.1 (rest.map Prod.fst) Prod.fst k hk),
                 hminc.1 k.2 (proj_mem_cons kv.1 (rest.map Prod.fst) Prod.snd k hk),
                 hmaxc.1 k.2 (proj_mem_cons kv.1 (rest.map Prod.fst) Prod.snd k hk)⟩
        · exact exists_of_proj_mem kv.1 (rest.map Prod.fst) Prod.fst _ hminr.2
        · exact exists_of_proj_mem kv.1 (rest.map Prod.fst) Prod.fst _ hmaxr.2
        · exact exists_of_proj_mem kv.1 (rest.map Prod.fst) Prod.snd _ hminc.2
        · exact exists_of_proj_mem kv.1 (rest.map Prod.fst) Prod.snd _ hmaxc.2

/-- Witness for C3: the empty board, and a one-cell board whose minimal
row is attained. -/
theorem C3_bounds_witness :
    ((ChessBoard.mk []).get_all_cells = [] ∧
     (ChessBoard.mk []).get_bounds = (0, 0, 0, 0)) ∧
    ((ChessBoard.mk [((2, 3), none)]).get_all_cells ≠ [] ∧
     ∃ k ∈ (ChessBoard.mk [((2, 3), none)]).get_all_cells,
       k.1 = (ChessBoard.mk [((2, 3), none)]).get_bounds.1) :=
  ⟨⟨rfl, (C3_bounds (ChessBoard.mk [])).1 rfl⟩,
   ⟨by decide, ((C3_bounds (ChessBoard.mk [((2, 3), none)])).2.1 (by decide)).2.1⟩⟩

theorem std_keys (b : ChessBoard) :
    (ChessBoard.setup_standard_position b).board.map Prod.fst
      = (List.range 8).flatMap (fun r : Nat =>
          (List.range 8).map (fun c : Nat => ((r : Int), (c : Int)))) := by
  rfl

theorem std_cell_exists_iff (b : ChessBoard) (r c : Int) :
    (ChessBoard.setup_standard_position b).cell_exists r c = true ↔
      (0 ≤ r ∧ r ≤ 7 ∧ 0 ≤ c ∧ c ≤ 7) := by
  rw [ChessBoard.cell_exists, Dict.lookupKey_isSome_iff_mem, std_keys b]
  simp only [List.mem_flatMap, List.mem_map, List.mem_range]
  constructor
  · rintro ⟨a, ha, a', ha', heq⟩
    injection heq with h1 h2
    omega
  · rintro ⟨hr0, hr7, hc0, hc7⟩
    exact ⟨r.toNat, by omega, c.toNat, by omega,
      by rw [Int.toNat_of_nonneg hr0, Int.toNat_of_nonneg hc0]⟩

/-- C2: after `setup_standard_position` the board consists of exactly
the 64 cells with rows and cols 0–7; row 0 carries the black back rank
(rook, knight, bishop, queen, king, bishop, knight, rook at cols 0–7),
row 7 the white back rank, rows 1 and 6 eight black and white pawns,
rows 2–5 exist but are empty, and the four named probes hold. -/
theorem C2_setup_standard (b : ChessBoard) :
    (∀ r c : Int, (ChessBoard.setup_standard_position b).cell_exists r c = true ↔
        (0 ≤ r ∧ r ≤ 7 ∧ 0 ≤ c ∧ c ≤ 7)) ∧
    (∀ x ∈ back_row.enum,
        (ChessBoard.setup_standard_position b).get_piece 0 (x.1 : Int)
          = some ⟨x.2, PieceColor.BLACK⟩ ∧
        (ChessBoard.setup_standard_position b).get_piece 7 (x.1 : Int)
          = some ⟨x.2, PieceColor.WHITE⟩) ∧
    (∀ c ∈ List.range 8,
        (ChessBoard.setup_standard_position b).get_piece 1 (c : Int)
          = some ⟨PieceType.PAWN, PieceColor.BLACK⟩ ∧
        (ChessBoard.setup_standard_position b).get_piece 6 (c : Int)
          = some ⟨PieceType.PAWN, PieceColor.WHITE⟩) ∧
    (∀ r ∈ [(2 : Int), 3, 4, 5], ∀ c ∈ List.range 8,
        (ChessBoard.setup_standard_position b).cell_exists r (c : Int) = true ∧
        (ChessBoard.setup_standard_position b).get_piece r (c : Int) = none) ∧
    ((ChessBoard.setup_standard_position b).get_piece 0 0
        = some ⟨PieceType.ROOK, PieceColor.BLACK⟩ ∧
     (ChessBoard.setup_standard_position b).get_piece 7 4
        = some ⟨PieceType.KING, PieceColor.WHITE⟩ ∧
     (ChessBoard.setup_standard_position b).get_piece 1 3
        = some ⟨PieceType.PAWN, PieceColor.BLACK⟩ ∧
     (ChessBoard.setup_standard_position b).get_piece 2 0 = none) := by
  refine ⟨std_cell_exists_iff b, ?_, ?_, ?_, ?_, ?_, ?_, ?_⟩
  all_goals
    first
    | rfl
    | (intro x hx
       fin_cases hx <;> exact ⟨rfl, rfl⟩)
    | (intro r hr
       fin_cases hr <;>
         (intro c hc
          fin_cases hc <;> exact ⟨rfl, rfl⟩))

/-- Witness for C2: the cell-range characterization applied at (0, 0)
and the back-rank membership applied at the rook entry. -/
theorem C2_setup_standard_witness :
    (ChessBoard.setup_standard_position (ChessBoard.mk [])).cell_exists 0 0 = true ∧
    (ChessBoard.setup_standard_position (ChessBoard.mk [])).get_piece 0 0
      = some ⟨PieceType.ROOK, PieceColor.BLACK⟩ :=
  ⟨((C2_setup_standard (ChessBoard.mk [])).1 0 0).mpr (by norm_num),
   ((C2_setup_standard (ChessBoard.mk [])).2.1 (0, PieceType.ROOK) (by decide)).1⟩

theorem irr_keys (b : ChessBoard) :
    (ChessBoard.setup_irregular_example b).board.map Prod.fst
      = (List.range 9).flatMap (fun r : Nat =>
          ((List.range 9).filter (fun c : Nat =>
            ¬((r < 3 ∧ c < 3) ∨ (r < 3 ∧ c > 5) ∨
              (r > 5 ∧ c < 3) ∨ (r > 5 ∧ c > 5)))).map
            (fun c : Nat => ((r : Int), (c : Int)))) := by
  rfl

theorem irr_cell_exists_iff (b : ChessBoard) (r c : Int) :
    (ChessBoard.setup_irregular_example b).cell_exists r c = true ↔
      (0 ≤ r ∧ r ≤ 8 ∧ 0 ≤ c ∧ c ≤ 8 ∧
       ¬((r ≤ 2 ∧ c ≤ 2) ∨ (r ≤ 2 ∧ 6 ≤ c) ∨
         (6 ≤ r ∧ c ≤ 2) ∨ (6 ≤ r ∧ 6 ≤ c))) := by
  rw [ChessBoard.cell_exists, Dict.lookupKey_isSome_iff_mem, irr_keys b]
  simp only [List.mem_flatMap, List.mem_map, List.mem_filter, List.mem_range,
    decide_eq_true_eq]
  constructor
  · rintro ⟨a, ha, a', ⟨ha', hcond⟩, heq⟩
    injection heq with h1 h2
    omega
  · rintro ⟨hr0, hr8, hc0, hc8, hcond⟩
    refine ⟨r.toNat, by omega, c.toNat, ⟨by omega, by omega⟩, ?_⟩
    rw [Int.toNat_of_nonneg hr0, Int.toNat_of_nonneg hc0]

theorem irr_board_eq (b : ChessBoard) :
    (ChessBoard.setup_irregular_example b).board
      = [((0, 3), none), ((0, 4), some ⟨PieceType.QUEEN, PieceColor.BLACK⟩), ((0, 5), none),
         ((1, 3), none), ((1, 4), none), ((1, 5), none),
         ((2, 3), none), ((2, 4), none), ((2, 5), none),
         ((3, 0), none), ((3, 1), none), ((3, 2), none),
         ((3, 3), none), ((3, 4), none), ((3, 5), none),
         ((3, 6), none), ((3, 7), none), ((3, 8), none),
         ((4, 0), some ⟨PieceType.ROOK, PieceColor.BLACK⟩), ((4, 1), none), ((4, 2), none),
         ((4, 3), none), ((4, 4), some ⟨PieceType.KING, PieceColor.WHITE⟩), ((4, 5), none),
         ((4, 6), none), ((4, 7), none), ((4, 8), some ⟨PieceType.ROOK, PieceColor.WHITE⟩),
         ((5, 0), none), ((5, 1), none), ((5, 2), none),
         ((5, 3), none), ((5, 4), none), ((5, 5), none),
         ((5, 6), none), ((5, 7), none), ((5, 8), none),
         ((6, 3), none), ((6, 4), none), ((6, 5), none),
         ((7, 3), none), ((7, 4), none), ((7, 5), none),
         ((8, 3), none), ((8, 4), some ⟨PieceType.QUEEN, PieceColor.WHITE⟩), ((8, 5), none)] := by
  rfl

theorem irr_pieces_iff (b : ChessBoard) (r c : Int) (p : Piece) :
    (ChessBoard.setup_irregular_example b).get_piece r c = some p ↔
      (r, c, p) ∈ [((4 : Int), (4 : Int), (⟨PieceType.KING, PieceColor.WHITE⟩ : Piece)),
          (0, 4, ⟨PieceType.QUEEN, PieceColor.BLACK⟩),
          (8, 4, ⟨PieceType.QUEEN, PieceColor.WHITE⟩),
          (4, 0, ⟨PieceType.ROOK, PieceColor.BLACK⟩),
          (4, 8, ⟨PieceType.ROOK, PieceColor.WHITE⟩)] := by
  constructor
  · intro h
    have hl : Dict.lookupKey (ChessBoard.setup_irregular_example b).board (r, c)
        = some (some p) := by
      unfold ChessBoard.get_piece at h
      cases hd : Dict.lookupKey (ChessBoard.setup_irregular_example b).board (r, c) with
      | none => rw [hd] at h; simp at h
      | some v => rw [hd] at h; simp at h; rw [h]
    have hmem := Dict.lookupKey_eq_some_mem _ _ _ hl
    rw [irr_board_eq b] at hmem
    simp only [List.mem_cons, List.not_mem_nil, or_false, Prod.mk.injEq,
      reduceCtorEq, and_false, false_or, Option.some.injEq] at hmem
    simp only [List.mem_cons, List.not_mem_nil, or_false, Prod.mk.injEq]
    tauto
  · intro h
    fin_cases h <;> rfl

/-- C4: after `setup_irregular_example` a cell exists exactly at the
coordinates of the 9×9 range outside the four 3×3 corner blocks, no cell
exists outside rows/cols 0–8, exactly the five enumerated pieces are
placed (white king (4,4), black queen (0,4), white queen (8,4), black
rook (4,0), white rook (4,8)), and the four named probes hold. -/
theorem C4_setup_irregular (b : ChessBoard) :
    (∀ r c : Int, (ChessBoard.setup_irregular_example b).cell_exists r c = true ↔
        (0 ≤ r ∧ r ≤ 8 ∧ 0 ≤ c ∧ c ≤ 8 ∧
         ¬((r ≤ 2 ∧ c ≤ 2) ∨ (r ≤ 2 ∧ 6 ≤ c) ∨
           (6 ≤ r ∧ c ≤ 2) ∨ (6 ≤ r ∧ 6 ≤ c)))) ∧
    (∀ r c : Int, ∀ p : Piece,
        (ChessBoard.setup_irregular_example b).get_piece r c = some p ↔
          (r, c, p) ∈ [((4 : Int), (4 : Int), (⟨PieceType.KING, PieceColor.WHITE⟩ : Piece)),
              (0, 4, ⟨PieceType.QUEEN, PieceColor.BLACK⟩),
              (8, 4, ⟨PieceType.QUEEN, PieceColor.WHITE⟩),
              (4, 0, ⟨PieceType.ROOK, PieceColor.BLACK⟩),
              (4, 8, ⟨PieceType.ROOK, PieceColor.WHITE⟩)]) ∧
    ((ChessBoard.setup_irregular_example b).cell_exists 0 0 = false ∧
     (ChessBoard.setup_irregular_example b).cell_exists 0 3 = true ∧
     (ChessBoard.setup_irregular_example b).get_piece 4 4
        = some ⟨PieceType.KING, PieceColor.WHITE⟩ ∧
     (ChessBoard.setup_irregular_example b).get_piece 0 4
        = some ⟨PieceType.QUEEN, PieceColor.BLACK⟩) :=
  ⟨irr_cell_exists_iff b, irr_pieces_iff b, rfl, rfl, rfl, rfl⟩

/-- Witness for C4: the existence characterization applied at the corner
hole (0, 0) and at the existing cell (0, 3), and the piece
characterization applied at the white king's square. -/
theorem C4_setup_irregular_witness :
    ¬((ChessBoard.setup_irregular_example (ChessBoard.mk [])).cell_exists 0 0 = true) ∧
    (ChessBoard.setup_irregular_example (ChessBoard.mk [])).cell_exists 0 3 = true ∧
    (ChessBoard.setup_irregular_example (ChessBoard.mk [])).get_piece 4 4
      = some ⟨PieceType.KING, PieceColor.WHITE⟩ :=
  ⟨fun h => by
      have hc := ((C4_setup_irregular (ChessBoard.mk [])).1 0 0).mp h
      omega,
   ((C4_setup_irregular (ChessBoard.mk [])).1 0 3).mpr (by norm_num),
   ((C4_setup_irregular (ChessBoard.mk [])).2.1 4 4
      ⟨PieceType.KING, PieceColor.WHITE⟩).mpr (by simp)⟩

/-- Witness for C7: removing the occupied cell (0, 0) of a concrete
board succeeds and leaves neither cell nor piece. -/
theorem C7_remove_cell_witness :
    ((ChessBoard.mk [((0, 0), some ⟨PieceType.PAWN, PieceColor.WHITE⟩)]).remove_cell
        0 0).2.cell_exists 0 0 = false ∧
    ((ChessBoard.mk [((0, 0), some ⟨PieceType.PAWN, PieceColor.WHITE⟩)]).remove_cell
        0 0).2.get_piece 0 0 = none ∧
    ((ChessBoard.mk [((0, 0), some ⟨PieceType.PAWN, PieceColor.WHITE⟩)]).remove_cell
        0 0).1 = true :=
  ⟨(C7_remove_cell (ChessBoard.mk [((0, 0), some ⟨PieceType.PAWN, PieceColor.WHITE⟩)]) 0 0).1,
   (C7_remove_cell (ChessBoard.mk [((0, 0), some ⟨PieceType.PAWN, PieceColor.WHITE⟩)]) 0 0).2.1,
   (C7_remove_cell (ChessBoard.mk [((0, 0), some ⟨PieceType.PAWN, PieceColor.WHITE⟩)]) 0 0).2.2.mpr
     (by decide)⟩
